import Mathlib

/-!
Verification of the backup lifecycle and retention engine of
`docker-rclone-b2-backup` (`backup.py`), as a shallow embedding in Lean 4.

The embedding models:
* Python list slicing `l[:-n]` and `l[n:]` (`sliceToNeg`, `List.drop`);
* Python `sorted` on strings (lexicographic by code point, stable) and
  `list.sort(key=..., reverse=True)` (stable descending by key);
* the glob pattern `{JOB_NAME}-backup-*.tar.xz` used by local pruning;
* the B2 client: bucket resolution from the authorized scope or the bucket
  listing, cursor-paginated file listing, and remote pruning;
* `run_command` / `upload_to_b2` (external `rclone` transport);
* `create_backup` (tar archive creation with per-file skip);
* `main` (the lifecycle orchestrator as it is actually written, with the
  validate / archive / upload / local-prune steps commented out).

Effectful Python code is modelled by explicit inputs and outputs: the
directory listing, the simulated object store, and the exit status of the
external process are parameters; deletions are returned as lists.
-/

/-! ## Python string comparison (code-point lexicographic, as `sorted` uses) -/

/-- Lexicographic comparison of character lists by code point; this is the
order Python uses to compare `str` values. -/
def charListLe : List Char → List Char → Bool
  | [], _ => true
  | _ :: _, [] => false
  | a :: as, b :: bs =>
    if a.toNat < b.toNat then true
    else if b.toNat < a.toNat then false
    else charListLe as bs

/-- Python string order `s1 <= s2`, as a proposition on Lean strings. -/
def pyStrLe (a b : String) : Prop := charListLe a.data b.data = true

instance : DecidableRel pyStrLe := fun _ _ => instDecidableEqBool _ _

def charListLe_total : ∀ as bs, charListLe as bs = true ∨ charListLe bs as = true
  | [], _ => Or.inl rfl
  | _ :: _, [] => Or.inr rfl
  | a :: as, b :: bs => by
    rcases Nat.lt_trichotomy a.toNat b.toNat with h | h | h
    · left; simp [charListLe, h]
    · have h1 : ¬ a.toNat < b.toNat := by omega
      have h2 : ¬ b.toNat < a.toNat := by omega
      rcases charListLe_total as bs with ih | ih
      · left; simp [charListLe, h1, h2, ih]
      · right; simp [charListLe, h1, h2, ih]
    · right; simp [charListLe, h]

def charListLe_cons_iff (a b : Char) (as bs : List Char) :
    charListLe (a :: as) (b :: bs) = true ↔
      a.toNat < b.toNat ∨ (a.toNat = b.toNat ∧ charListLe as bs = true) := by
  simp only [charListLe]
  split_ifs with h1 h2
  · simp only [true_iff]
    exact Or.inl h1
  · simp only [false_iff]
    rintro (h | ⟨h, -⟩) <;> omega
  · have h : a.toNat = b.toNat := by omega
    simp [h]

def charListLe_trans :
    ∀ as bs cs, charListLe as bs = true → charListLe bs cs = true →
      charListLe as cs = true
  | [], _, _, _, _ => rfl
  | _ :: _, [], _, hab, _ => by simp [charListLe] at hab
  | _ :: _, _ :: _, [], _, hbc => by simp [charListLe] at hbc
  | a :: as, b :: bs, c :: cs, hab, hbc => by
    rw [charListLe_cons_iff] at hab hbc ⊢
    rcases hab with h1 | ⟨h1, hab1⟩ <;> rcases hbc with h2 | ⟨h2, hbc1⟩
    · exact Or.inl (by omega)
    · exact Or.inl (by omega)
    · exact Or.inl (by omega)
    · exact Or.inr ⟨by omega, charListLe_trans as bs cs hab1 hbc1⟩

instance : IsTotal String pyStrLe := ⟨fun a b => charListLe_total a.data b.data⟩

instance : IsTrans String pyStrLe :=
  ⟨fun a b c => charListLe_trans a.data b.data c.data⟩

/-- Python `sorted` on a list of strings: a stable ascending sort under the
code-point lexicographic order. -/
def pySorted (l : List String) : List String := l.insertionSort pyStrLe

/-! ## Python negative slicing -/

/-- Python `l[:-n]` for `n ≥ 0`.  Crucially, `l[:-0]` is `l[:0] = []`, not the
whole list: this is the slice `backups[:-retention_count]` used by the local
pruner. -/
def sliceToNeg (l : List α) (n : Nat) : List α :=
  if n = 0 then [] else l.take (l.length - n)

/-! ## Local archive naming and the glob pattern -/

/-- The archive name built in `main`:
`f"{JOB_NAME}-backup-{timestamp}.tar.xz"`. -/
def backup_name (job timestamp : String) : String :=
  job ++ "-backup-" ++ timestamp ++ ".tar.xz"

/-- Whether a file name matches the glob `f"{job}-backup-*.tar.xz"` used by
`prune_old_backups_local` (a single `*` glob matches iff the name starts with
the literal part before `*`, ends with the literal part after it, and is long
enough that the two parts do not overlap). -/
def matchesBackupPattern (job name : String) : Bool :=
  let pre := (job ++ "-backup-").data
  let suf := ".tar.xz".data
  pre.isPrefixOf name.data && suf.isSuffixOf name.data &&
    decide (pre.length + suf.length ≤ name.data.length)

/-! ## Local pruning (`prune_old_backups_local`) -/

/-- `prune_old_backups_local`, as the list of paths it deletes.  The effectful
directory state is the parameter `dir` (the names in the backup directory);
`glob.glob(pattern)` is the filter by `matchesBackupPattern`, `sorted` is
`pySorted`, and `backups[:-retention_count] if len(backups) > retention_count
else []` is the slice `sliceToNeg`. -/
def prune_old_backups_local (job : String) (dir : List String)
    (retention_count : Nat) : List String :=
  if (pySorted (dir.filter (fun n => matchesBackupPattern job n))).length >
      retention_count then
    sliceToNeg (pySorted (dir.filter (fun n => matchesBackupPattern job n)))
      retention_count
  else []

/-- The backup directory after `prune_old_backups_local` ran (each `os.remove`
succeeding): the listed names minus the deleted ones. -/
def prune_local_result (job : String) (dir : List String)
    (retention_count : Nat) : List String :=
  dir.filter (fun n => decide (n ∉ prune_old_backups_local job dir retention_count))

/-! ## Remote objects and the stable descending sort by upload timestamp -/

/-- One entry of a `b2_list_file_names` response: the fields of the JSON
object that `prune_old_backups_remote_b2` and `b2_delete_file` use. -/
structure RemoteFile where
  fileName : String
  fileId : String
  uploadTimestamp : Nat
deriving DecidableEq

/-- The sort key relation of
`files.sort(key=lambda f: f.get("uploadTimestamp", 0), reverse=True)`:
`a` may come before `b` when `b`'s timestamp is at most `a`'s. -/
def tsGe (a b : RemoteFile) : Prop := b.uploadTimestamp ≤ a.uploadTimestamp

instance : DecidableRel tsGe := fun a b => Nat.decLe b.uploadTimestamp a.uploadTimestamp

instance : IsTotal RemoteFile tsGe :=
  ⟨fun a b => (Nat.le_total a.uploadTimestamp b.uploadTimestamp).symm⟩

instance : IsTrans RemoteFile tsGe := ⟨fun _ _ _ hab hbc => Nat.le_trans hbc hab⟩

/-- Python's `list.sort(key=..., reverse=True)`: a stable descending sort by
upload timestamp (insertion sort built by `foldr` keeps ties in their
original listing order). -/
def sortByTsDesc (l : List RemoteFile) : List RemoteFile := l.insertionSort tsGe

/-! ## B2 paginated listing (`b2_list_files`) over a simulated store -/

/-- A simulated B2 store for the listing endpoint: the full set of objects,
and the page cap the store enforces (`maxFileCount` is requested as 1000 and
B2 serves at most that many entries per call). -/
structure B2Store where
  objects : List RemoteFile
  cap : Nat

/-- The objects of the store under a name prefix — the set the
`b2_list_file_names` endpoint serves for that `prefix` field. -/
def storeListed (s : B2Store) (pfx : String) : List RemoteFile :=
  s.objects.filter (fun o => pfx.data.isPrefixOf o.fileName.data)

/-- One `b2_list_file_names` response for a request with cursor position
`start` into the prefix-restricted object sequence `l`: a page of at most
`cap` entries, and `nextFileName` (modelled as the next cursor position)
when more remain. -/
def b2Page (l : List RemoteFile) (cap start : Nat) :
    List RemoteFile × Option Nat :=
  let page := (l.drop start).take cap
  (page, if start + page.length < l.length then some (start + page.length) else none)

/-- The cursor position of the next request: `0` when no `startFileName` is
held (the first iteration), else the held cursor. -/
def cursorStart : Option Nat → Nat
  | none => 0
  | some n => n

/-- The `while True` loop of `b2_list_files`: request a page (with
`startFileName` when a cursor is held), extend `files`, and stop when the
response carries no `nextFileName`.  `fuel` bounds the iteration so the
definition is total; `b2_list_files` supplies enough fuel for every store. -/
def b2_list_files_loop (l : List RemoteFile) (cap : Nat) :
    Nat → Option Nat → List RemoteFile → List RemoteFile
  | 0, _, files => files
  | fuel + 1, cursor, files =>
    match (b2Page l cap (cursorStart cursor)).2 with
    | none => files ++ (b2Page l cap (cursorStart cursor)).1
    | some n =>
      b2_list_files_loop l cap fuel (some n)
        (files ++ (b2Page l cap (cursorStart cursor)).1)

/-- `b2_list_files`: list **all** files under `pfx` by following the
pagination cursor until the store stops returning one. -/
def b2_list_files (s : B2Store) (pfx : String) : List RemoteFile :=
  b2_list_files_loop (storeListed s pfx) s.cap
    ((storeListed s pfx).length + 1) none []

/-! ## Bucket resolution (`b2_resolve_bucket_id`) -/

/-- The `allowed` scope object of a B2 authorization response; fields are
`Option`s because a non-restricted key omits them (`dict.get` returns
`None`). -/
structure B2Allowed where
  bucketName : Option String
  bucketId : Option String
deriving DecidableEq

/-- One entry of a `b2_list_buckets` response. -/
structure B2BucketInfo where
  bucketName : String
  bucketId : String
deriving DecidableEq

/-- Python truthiness of `allowed.get("bucketId")`: present and non-empty. -/
def truthyOpt : Option String → Bool
  | none => false
  | some s => !(s == "")

/-- The `for b in buckets` scan of `b2_resolve_bucket_id`: the id of the
first listed bucket whose name matches, else `none` (the
`RuntimeError("Bucket not found or not permitted")` raise). -/
def findBucketId (name : String) : List B2BucketInfo → Option String
  | [] => none
  | b :: bs => if b.bucketName = name then some b.bucketId else findBucketId name bs

/-- `b2_resolve_bucket_id`.  `allowed = none` models a falsy (empty) scope
dict.  `buckets` is the store's `b2_list_buckets` response (the request is
filtered server-side by `bucketName`, and the loop re-checks the name).
Returns the resolved id (`none` models the not-found raise) together with
whether the listing endpoint was called. -/
def b2_resolve_bucket_id (allowed : Option B2Allowed) (bucket_name : String)
    (buckets : List B2BucketInfo) : Option String × Bool :=
  match allowed with
  | some a =>
    if a.bucketName = some bucket_name ∧ truthyOpt a.bucketId = true then
      (a.bucketId, false)
    else (findBucketId bucket_name buckets, true)
  | none => (findBucketId bucket_name buckets, true)

/-! ## Remote pruning (`prune_old_backups_remote_b2`) -/

/-- The slash normalization applied to the configured prefix before listing:
`prefix if prefix.endswith('/') else f"{prefix}/"`. -/
def withSlash (pfx : String) : String :=
  if pfx.data.getLast? = some '/' then pfx else pfx ++ "/"

/-- The retention core of `prune_old_backups_remote_b2` on an already-listed
sequence: sort by upload timestamp newest-first, keep the newest `keep`, and
return the rest (`files[keep:] if len(files) > keep else []`) as the list of
objects it deletes. -/
def remote_to_delete (files : List RemoteFile) (keep : Nat) : List RemoteFile :=
  if (sortByTsDesc files).length > keep then (sortByTsDesc files).drop keep
  else []

/-- `prune_old_backups_remote_b2` against a simulated store, as the list of
objects it deletes: list everything under the slash-normalized prefix, then
apply the retention core. -/
def prune_old_backups_remote_b2 (store : B2Store) (pfx : String)
    (keep : Nat) : List RemoteFile :=
  remote_to_delete (b2_list_files store (withSlash pfx)) keep

/-! ## Transport (`run_command`, `upload_to_b2`) -/

/-- The outcome of the external process started by `subprocess.run(command,
shell=True)`.  The child's stdout/stderr are **inherited streams** — the call
does not capture them — so they are carried here only to state what the
raised error does (not) contain. -/
structure ProcResult where
  returncode : Int
  stdout : String
  stderr : String
deriving DecidableEq

/-- `run_command`: log the command, run it, and raise
`RuntimeError(f"Command failed: {command}")` on a non-zero exit code.
Returns the emitted log lines together with the normal/exceptional outcome
(`Except.error` carries the exception message). -/
def run_command (command : String) (result : ProcResult) :
    List String × Except String Unit :=
  if result.returncode ≠ 0 then
    (["Executing: " ++ command,
      "Command failed with exit code " ++ toString result.returncode ++ ": " ++ command],
     Except.error ("Command failed: " ++ command))
  else (["Executing: " ++ command], Except.ok ())

/-- The exact `rclone` command string assembled by `upload_to_b2`
(`\x27` is the shell single-quote around each path). -/
def rclone_command (local_path remote_path : String) : String :=
  "rclone copy \x27" ++ local_path ++ "\x27 \x27" ++ remote_path ++
    "\x27 --progress --stats-one-line -P --b2-chunk-size 100M --transfers 4"

/-- `upload_to_b2`: build the rclone command and run it through
`run_command`. -/
def upload_to_b2 (local_path remote_path : String) (result : ProcResult) :
    List String × Except String Unit :=
  run_command (rclone_command local_path remote_path) result

/-- Whether a character list occurs contiguously inside another (used to
state what the raised transport error contains). -/
def hasSubList (needle : List Char) : List Char → Bool
  | [] => needle.isEmpty
  | c :: rest => needle.isPrefixOf (c :: rest) || hasSubList needle rest

/-- Whether the stderr of the command occurs in the raised failure message
(vacuously true when no failure is raised). -/
def stderrPropagatedB (local_path remote_path : String) (res : ProcResult) : Bool :=
  match (upload_to_b2 local_path remote_path res).2 with
  | Except.error msg => hasSubList res.stderr.data msg.data
  | Except.ok _ => true

/-- The claim instance "the stderr of the failed command is propagated into
the raised failure" for one concrete `upload_to_b2` invocation. -/
@[reducible] def stderrPropagated (local_path remote_path : String)
    (res : ProcResult) : Prop :=
  stderrPropagatedB local_path remote_path res = true

/-! ## Archive creation (`create_backup`) -/

/-- A regular file found by the `rglob` walk of the source tree: its
absolute path, and whether `tar.add` succeeds on it (`readable = false`
models a per-file error such as a permission failure or the file vanishing
mid-walk). -/
structure SrcFile where
  path : String
  readable : Bool
deriving DecidableEq

/-- `pathlib.PurePath.relative_to(source_dir)` for a path of the form
`source_dir ++ "/" ++ rest`: drop the root and the separator. -/
def relative_to (source_dir p : String) : String :=
  String.mk (p.data.drop (source_dir.data.length + 1))

/-- The fixed backup directory `BACKUP_DIR` of the container. -/
def BACKUP_DIR : String := "/usr/app/storage/backups"

/-- The `for f in all_files` loop of `create_backup`: add each file to the
archive under its source-relative name; a file whose `tar.add` raises is
skipped (logged as a warning) and the loop continues. -/
def tar_add_loop (source_dir : String) : List SrcFile → List String
  | [] => []
  | f :: fs =>
    if f.readable then relative_to source_dir f.path :: tar_add_loop source_dir fs
    else tar_add_loop source_dir fs

/-- `create_backup`: open the archive for writing (`canOpen = false` models a
fatal `tarfile.open` failure, which is **not** wrapped in the per-file
`try`), then stream every readable walked file into it.  On success returns
the archive path and the archive's entry names. -/
def create_backup (canOpen : Bool) (source_dir : String)
    (all_files : List SrcFile) (backup_name : String) :
    Except String (String × List String) :=
  if canOpen then
    Except.ok (BACKUP_DIR ++ "/" ++ backup_name, tar_add_loop source_dir all_files)
  else Except.error "cannot open archive for writing"

/-! ## The lifecycle orchestrator (`main`) as written -/

/-- The five lifecycle steps of the documented design. -/
inductive LifecycleStep
  | validate
  | archive
  | upload
  | pruneRemote
  | pruneLocal
deriving DecidableEq

/-- Python truthiness of a configuration environment variable: present and
non-empty (`if not val` treats `""` like an unset variable). -/
def envPresent : Option String → Bool
  | none => false
  | some s => !(s == "")

/-- The configuration and world state `main` reads: the four required
environment variables and whether the one live step
(`prune_old_backups_remote_b2`) raises. -/
structure MainEnv where
  b2Bucket : Option String
  remotePath : Option String
  b2Account : Option String
  b2Key : Option String
  remotePruneOk : Bool

/-- `main` as it is written in the final revision of `backup.py`: after the
required-variable check, the `try` block runs **only**
`prune_old_backups_remote_b2` — the calls to `validate_b2_or_fail`,
`create_backup`, `upload_to_b2` and `prune_old_backups_local` are commented
out.  Returns the sequence of lifecycle steps that get executed and the
process exit code. -/
def main_run (env : MainEnv) : List LifecycleStep × Nat :=
  if envPresent env.b2Bucket && envPresent env.remotePath &&
      envPresent env.b2Account && envPresent env.b2Key then
    if env.remotePruneOk then ([LifecycleStep.pruneRemote], 0)
    else ([LifecycleStep.pruneRemote], 1)
  else ([], 1)

/-! ## Helper lemmas -/

theorem tar_add_loop_eq (source_dir : String) :
    ∀ fs : List SrcFile,
      tar_add_loop source_dir fs =
        (fs.filter (fun f => f.readable)).map (fun f => relative_to source_dir f.path)
  | [] => rfl
  | f :: fs => by
    by_cases h : f.readable <;>
      simp [tar_add_loop, h, tar_add_loop_eq source_dir fs]

theorem findBucketId_eq_find? (name : String) :
    ∀ bs : List B2BucketInfo,
      findBucketId name bs =
        (bs.find? (fun b => b.bucketName == name)).map B2BucketInfo.bucketId
  | [] => rfl
  | b :: bs => by
    by_cases h : b.bucketName = name <;>
      simp [findBucketId, List.find?_cons, h, findBucketId_eq_find? name bs]

theorem sliceToNeg_of_pos (l : List α) (n : Nat) (h : n ≠ 0) :
    sliceToNeg l n = l.take (l.length - n) := by
  simp [sliceToNeg, h]

theorem prune_local_eq_take (job : String) (dir : List String) (N : Nat)
    (hN : 1 ≤ N) :
    prune_old_backups_local job dir N =
      (pySorted (dir.filter (fun n => matchesBackupPattern job n))).take
        ((pySorted (dir.filter (fun n => matchesBackupPattern job n))).length - N) := by
  unfold prune_old_backups_local
  split_ifs with h
  · exact sliceToNeg_of_pos _ _ (by omega)
  · have hlen : (pySorted (dir.filter (fun n => matchesBackupPattern job n))).length - N = 0 := by
      omega
    rw [hlen, List.take_zero]

theorem mem_prune_local_matches (job : String) (dir : List String) (N : Nat)
    (x : String) (hx : x ∈ prune_old_backups_local job dir N) :
    x ∈ dir ∧ matchesBackupPattern job x = true := by
  unfold prune_old_backups_local at hx
  split_ifs at hx with h
  · unfold sliceToNeg at hx
    split_ifs at hx with h0
    · exact absurd hx (List.not_mem_nil x)
    · have hx2 : x ∈ pySorted (dir.filter (fun n => matchesBackupPattern job n)) :=
        List.mem_of_mem_take hx
      have hx3 : x ∈ dir.filter (fun n => matchesBackupPattern job n) :=
        (List.mem_insertionSort pyStrLe).mp hx2
      exact ⟨(List.mem_filter.mp hx3).1, (List.mem_filter.mp hx3).2⟩
  · exact absurd hx (List.not_mem_nil x)

theorem b2Page_fst (l : List RemoteFile) (cap start : Nat) :
    (b2Page l cap start).1 = (l.drop start).take cap := rfl

theorem b2Page_snd (l : List RemoteFile) (cap start : Nat) :
    (b2Page l cap start).2 =
      if start + ((l.drop start).take cap).length < l.length then
        some (start + ((l.drop start).take cap).length)
      else none := rfl

theorem b2Page_fst_length (l : List RemoteFile) (cap start : Nat) :
    ((l.drop start).take cap).length = min cap (l.length - start) := by
  rw [List.length_take, List.length_drop]

theorem take_append_drop_length (xs : List RemoteFile) (cap : Nat) :
    xs.take cap ++ xs.drop (xs.take cap).length = xs := by
  rcases Nat.le_total cap xs.length with h | h
  · rw [List.length_take, Nat.min_eq_left h, List.take_append_drop]
  · rw [List.take_of_length_le h, List.drop_eq_nil_of_le le_rfl, List.append_nil]

theorem b2_list_files_loop_some (l : List RemoteFile) (cap : Nat)
    (hcap : 0 < cap) :
    ∀ (fuel start : Nat) (acc : List RemoteFile),
      l.length - start < fuel →
      b2_list_files_loop l cap fuel (some start) acc = acc ++ l.drop start
  | 0, _, _, h => absurd h (by omega)
  | fuel + 1, start, acc, h => by
    have hub : ((l.drop start).take cap).length ≤ cap := List.length_take_le cap _
    have hub2 : ((l.drop start).take cap).length ≤ l.length - start := by
      rw [show l.length - start = (l.drop start).length from
        (List.length_drop start l).symm]
      exact (List.take_sublist cap (l.drop start)).length_le
    have hlb : cap ≤ ((l.drop start).take cap).length ∨
        l.length - start ≤ ((l.drop start).take cap).length := by
      rcases Nat.le_total cap (l.drop start).length with hc | hc
      · exact Or.inl (Nat.le_of_eq (List.length_take_of_le hc).symm)
      · refine Or.inr ?_
        rw [List.take_of_length_le hc, List.length_drop]
    by_cases hlt : start + ((l.drop start).take cap).length < l.length
    · have hnext : (b2Page l cap start).2
          = some (start + ((l.drop start).take cap).length) := by
        rw [b2Page_snd, if_pos hlt]
      unfold b2_list_files_loop
      simp only [cursorStart]
      rw [hnext]
      dsimp only
      rw [b2_list_files_loop_some l cap hcap fuel
          (start + ((l.drop start).take cap).length) _ (by rcases hlb with hlb | hlb <;> omega)]
      simp only [b2Page_fst]
      rw [List.append_assoc]
      congr 1
      rw [show l.drop (start + ((l.drop start).take cap).length)
          = (l.drop start).drop ((l.drop start).take cap).length from by
        rw [List.drop_drop]]
      exact take_append_drop_length (l.drop start) cap
    · have hnext : (b2Page l cap start).2 = none := by
        rw [b2Page_snd, if_neg hlt]
      unfold b2_list_files_loop
      simp only [cursorStart]
      rw [hnext]
      dsimp only
      simp only [b2Page_fst]
      congr 1
      exact List.take_of_length_le (by rw [List.length_drop]; omega)

theorem b2_list_files_complete (s : B2Store) (pfx : String) (hcap : 0 < s.cap) :
    b2_list_files s pfx = storeListed s pfx := by
  unfold b2_list_files
  have h0 : b2_list_files_loop (storeListed s pfx) s.cap
        ((storeListed s pfx).length + 1) none []
      = b2_list_files_loop (storeListed s pfx) s.cap
        ((storeListed s pfx).length + 1) (some 0) [] := rfl
  rw [h0, b2_list_files_loop_some _ _ hcap _ 0 [] (by omega)]
  simp

theorem mem_b2_list_files_loop (l : List RemoteFile) (cap : Nat) :
    ∀ (fuel : Nat) (c : Option Nat) (acc : List RemoteFile) (x : RemoteFile),
      x ∈ b2_list_files_loop l cap fuel c acc → x ∈ acc ∨ x ∈ l
  | 0, _, _, _, h => Or.inl h
  | fuel + 1, c, acc, x, h => by
    have hpage : ∀ y, y ∈ (b2Page l cap (cursorStart c)).1 → y ∈ l := by
      intro y hy
      rw [b2Page_fst] at hy
      exact List.mem_of_mem_drop (List.mem_of_mem_take hy)
    unfold b2_list_files_loop at h
    rcases hsnd : (b2Page l cap (cursorStart c)).2 with _ | n <;> rw [hsnd] at h
    · rcases List.mem_append.mp h with h1 | h1
      · exact Or.inl h1
      · exact Or.inr (hpage x h1)
    · rcases mem_b2_list_files_loop l cap fuel (some n) _ x h with h1 | h1
      · rcases List.mem_append.mp h1 with h2 | h2
        · exact Or.inl h2
        · exact Or.inr (hpage x h2)
      · exact Or.inr h1

theorem mem_b2_list_files (s : B2Store) (pfx : String) (x : RemoteFile)
    (h : x ∈ b2_list_files s pfx) :
    x ∈ s.objects ∧ pfx.data.isPrefixOf x.fileName.data = true := by
  unfold b2_list_files at h
  rcases mem_b2_list_files_loop _ _ _ _ _ _ h with h1 | h1
  · exact absurd h1 (List.not_mem_nil x)
  · exact ⟨(List.mem_filter.mp h1).1, (List.mem_filter.mp h1).2⟩

theorem filter_orderedInsert_ts_ne (a : RemoteFile) (t : Nat)
    (ha : ¬ a.uploadTimestamp = t) :
    ∀ l : List RemoteFile,
      (List.orderedInsert tsGe a l).filter (fun f => decide (f.uploadTimestamp = t))
        = l.filter (fun f => decide (f.uploadTimestamp = t))
  | [] => by simp [List.orderedInsert, ha]
  | b :: bs => by
    by_cases hab : tsGe a b
    · simp [List.orderedInsert, hab, List.filter_cons, ha]
    · simp only [List.orderedInsert, if_neg hab, List.filter_cons]
      rw [filter_orderedInsert_ts_ne a t ha bs]

theorem filter_orderedInsert_ts_eq (a : RemoteFile) (t : Nat)
    (ha : a.uploadTimestamp = t) :
    ∀ l : List RemoteFile,
      (List.orderedInsert tsGe a l).filter (fun f => decide (f.uploadTimestamp = t))
        = a :: l.filter (fun f => decide (f.uploadTimestamp = t))
  | [] => by simp [List.orderedInsert, ha]
  | b :: bs => by
    by_cases hab : tsGe a b
    · simp [List.orderedInsert, hab, List.filter_cons, ha]
    · have hb : ¬ (b.uploadTimestamp = t) := by unfold tsGe at hab; omega
      simp only [List.orderedInsert, if_neg hab, List.filter_cons, hb]
      rw [filter_orderedInsert_ts_eq a t ha bs]
      simp

theorem sortByTsDesc_stable (t : Nat) :
    ∀ l : List RemoteFile,
      (sortByTsDesc l).filter (fun f => decide (f.uploadTimestamp = t))
        = l.filter (fun f => decide (f.uploadTimestamp = t))
  | [] => rfl
  | a :: l => by
    show (List.orderedInsert tsGe a (sortByTsDesc l)).filter
        (fun f => decide (f.uploadTimestamp = t)) = _
    by_cases ha : a.uploadTimestamp = t
    · rw [filter_orderedInsert_ts_eq a t ha, sortByTsDesc_stable t l,
        List.filter_cons]
      simp [ha]
    · rw [filter_orderedInsert_ts_ne a t ha, sortByTsDesc_stable t l,
        List.filter_cons]
      simp [ha]

theorem remote_to_delete_eq_drop (files : List RemoteFile) (keep : Nat) :
    remote_to_delete files keep = (sortByTsDesc files).drop keep := by
  unfold remote_to_delete
  split_ifs with h
  · rfl
  · exact (List.drop_eq_nil_of_le (by omega)).symm

theorem prune_local_result_filter_perm (job : String) (dir : List String)
    (N : Nat) (hN : 1 ≤ N) (hnd : dir.Nodup) :
    ((prune_local_result job dir N).filter
        (fun n => matchesBackupPattern job n)).Perm
      ((pySorted (dir.filter (fun n => matchesBackupPattern job n))).drop
        ((pySorted (dir.filter (fun n => matchesBackupPattern job n))).length - N)) := by
  set p : String → Bool := fun n => matchesBackupPattern job n with hp
  set del := prune_old_backups_local job dir N with hdel0
  set sorted := pySorted (dir.filter p) with hsorted
  set k := sorted.length - N with hk
  have hdel : del = sorted.take k := prune_local_eq_take job dir N hN
  have hstep1 : (prune_local_result job dir N).filter p
      = (dir.filter p).filter (fun n => decide (n ∉ del)) := by
    unfold prune_local_result
    rw [← hdel0, List.filter_filter, List.filter_filter]
    exact List.filter_congr (fun a _ => Bool.and_comm _ _)
  have hperm1 : ((dir.filter p).filter (fun n => decide (n ∉ del))).Perm
      (sorted.filter (fun n => decide (n ∉ del))) :=
    ((List.perm_insertionSort pyStrLe (dir.filter p)).symm.filter _)
  have hnds : sorted.Nodup :=
    ((List.perm_insertionSort pyStrLe (dir.filter p)).nodup_iff).mpr (hnd.filter p)
  have hstep3 : sorted.filter (fun n => decide (n ∉ del)) = sorted.drop k := by
    conv_lhs => rw [← List.take_append_drop k sorted]
    rw [List.filter_append]
    have h1 : (sorted.take k).filter (fun n => decide (n ∉ del)) = [] := by
      refine List.filter_eq_nil_iff.mpr (fun a ha => ?_)
      simp only [decide_eq_true_eq, Decidable.not_not]
      rw [hdel]
      exact ha
    have h2 : (sorted.drop k).filter (fun n => decide (n ∉ del)) = sorted.drop k := by
      refine List.filter_eq_self.mpr (fun a ha => ?_)
      have hnot : a ∉ sorted.take k :=
        fun hmem => (List.disjoint_take_drop hnds le_rfl) hmem ha
      simp [hdel, hnot]
    rw [h1, h2, List.nil_append]
  rw [hstep1]
  rw [hstep3] at hperm1
  exact hperm1

theorem length_pySorted (l : List String) : (pySorted l).length = l.length :=
  List.length_insertionSort pyStrLe l

theorem length_sortByTsDesc (l : List RemoteFile) :
    (sortByTsDesc l).length = l.length :=
  List.length_insertionSort tsGe l

/-! ## Claim theorems -/

/-- C1: the claim says every run executes validate, archive, upload,
prune-remote, prune-local in order.  Evaluating the orchestrator as written
shows otherwise: on every environment the executed step sequence is `[]`
(missing configuration) or `[pruneRemote]` — the validate, archive, upload
and local-prune steps are commented out and never execute.  This records the
divergence of the code from the documented five-step lifecycle. -/
theorem main_runs_only_remote_prune (env : MainEnv) :
    ((main_run env).1 = [] ∨ (main_run env).1 = [LifecycleStep.pruneRemote])
    ∧ LifecycleStep.validate ∉ (main_run env).1
    ∧ LifecycleStep.archive ∉ (main_run env).1
    ∧ LifecycleStep.upload ∉ (main_run env).1
    ∧ LifecycleStep.pruneLocal ∉ (main_run env).1 := by
  unfold main_run
  split_ifs <;> simp

/-- C2 counterexample: the claim quantifies over every keep-count `N ≥ 0`,
but at `N = 0` with one matching archive the code deletes nothing —
`backups[:-0]` is the empty slice — instead of the claimed
`max(M - N, 0) = 1` files. -/
theorem local_prune_zero_deletes_nothing :
    prune_old_backups_local "db1" ["db1-backup-20240101-020000.tar.xz"] 0 = []
    ∧ ¬ ((prune_old_backups_local "db1"
        ["db1-backup-20240101-020000.tar.xz"] 0).length = 1) := by decide

/-- C2 (amended to keep-counts `N ≥ 1`): local pruning deletes exactly the
`M - N` chronologically oldest matching files (the initial segment of the
filename-sorted matches), leaves exactly `min N M` files — precisely the
final (newest) segment of the sorted matches — and a second prune on the
resulting directory deletes nothing. -/
theorem local_prune_keeps_newest (job : String) (dir : List String) (N : Nat)
    (hN : 1 ≤ N) (hnd : dir.Nodup) :
    prune_old_backups_local job dir N =
      (pySorted (dir.filter (fun n => matchesBackupPattern job n))).take
        ((pySorted (dir.filter (fun n => matchesBackupPattern job n))).length - N)
    ∧ (prune_old_backups_local job dir N).length =
        (dir.filter (fun n => matchesBackupPattern job n)).length - N
    ∧ List.Sorted pyStrLe (pySorted (dir.filter (fun n => matchesBackupPattern job n)))
    ∧ ((prune_local_result job dir N).filter
          (fun n => matchesBackupPattern job n)).Perm
        ((pySorted (dir.filter (fun n => matchesBackupPattern job n))).drop
          ((pySorted (dir.filter (fun n => matchesBackupPattern job n))).length - N))
    ∧ ((prune_local_result job dir N).filter
          (fun n => matchesBackupPattern job n)).length =
        min N (dir.filter (fun n => matchesBackupPattern job n)).length
    ∧ prune_old_backups_local job (prune_local_result job dir N) N = [] := by
  have h1 := prune_local_eq_take job dir N hN
  have hperm := prune_local_result_filter_perm job dir N hN hnd
  have hlensort :
      (pySorted (dir.filter (fun n => matchesBackupPattern job n))).length
        = (dir.filter (fun n => matchesBackupPattern job n)).length :=
    List.length_insertionSort pyStrLe _
  refine ⟨h1, ?_, List.sorted_insertionSort pyStrLe _, hperm, ?_, ?_⟩
  · rw [h1, List.length_take, Nat.min_eq_left (Nat.sub_le _ _), hlensort]
  · rw [hperm.length_eq, List.length_drop, hlensort]
    rcases Nat.le_total N
      ((dir.filter (fun n => matchesBackupPattern job n)).length) with hc | hc
    · rw [Nat.min_eq_left hc]
      omega
    · rw [Nat.min_eq_right hc]
      omega
  · have hlen2 : (pySorted ((prune_local_result job dir N).filter
        (fun n => matchesBackupPattern job n))).length ≤ N := by
      rw [length_pySorted, hperm.length_eq, List.length_drop]
      omega
    unfold prune_old_backups_local
    rw [if_neg (by omega)]

/-- Witness for the amended C2 at a concrete directory: job `db1`, three
matching archives plus one foreign file, keep-count 2. -/
theorem local_prune_keeps_newest_witness :
    prune_old_backups_local "db1"
        ["db1-backup-20240103-020000.tar.xz", "db1-backup-20240101-020000.tar.xz",
         "other-file.txt", "db1-backup-20240102-020000.tar.xz"] 2 =
      (pySorted (["db1-backup-20240103-020000.tar.xz",
          "db1-backup-20240101-020000.tar.xz", "other-file.txt",
          "db1-backup-20240102-020000.tar.xz"].filter
          (fun n => matchesBackupPattern "db1" n))).take
        ((pySorted (["db1-backup-20240103-020000.tar.xz",
          "db1-backup-20240101-020000.tar.xz", "other-file.txt",
          "db1-backup-20240102-020000.tar.xz"].filter
          (fun n => matchesBackupPattern "db1" n))).length - 2) :=
  (local_prune_keeps_newest "db1"
    ["db1-backup-20240103-020000.tar.xz", "db1-backup-20240101-020000.tar.xz",
     "other-file.txt", "db1-backup-20240102-020000.tar.xz"] 2
    (by decide) (by decide)).1

/-- C3: remote pruning deletes exactly the objects beyond the newest `keep`
of the stable descending sort by upload timestamp: the sort is a permutation
of the listing, descending in timestamp, keeps tied objects in their
original listing order (the filter characterization), and the deleted list
is its suffix past the first `keep`, so exactly `min keep M` newest objects
remain. -/
theorem remote_prune_keeps_newest (files : List RemoteFile) (keep : Nat) :
    remote_to_delete files keep = (sortByTsDesc files).drop keep
    ∧ (sortByTsDesc files).Perm files
    ∧ List.Sorted tsGe (sortByTsDesc files)
    ∧ (∀ t, (sortByTsDesc files).filter (fun f => decide (f.uploadTimestamp = t))
        = files.filter (fun f => decide (f.uploadTimestamp = t)))
    ∧ (sortByTsDesc files).take keep ++ remote_to_delete files keep
        = sortByTsDesc files
    ∧ ((sortByTsDesc files).take keep).length = min keep files.length := by
  refine ⟨remote_to_delete_eq_drop files keep, List.perm_insertionSort tsGe files,
    List.sorted_insertionSort tsGe files, fun t => sortByTsDesc_stable t files,
    ?_, ?_⟩
  · rw [remote_to_delete_eq_drop, List.take_append_drop]
  · rw [List.length_take, length_sortByTsDesc]

/-- C4: evaluation at the failing input of the keep-count-0 claim.  Local
pruning with retention 0 deletes nothing — `backups[:-0]` is the empty
slice — contradicting the claim that a keep-count of 0 deletes every
matching archive; remote pruning with keep 0 does delete every object
(`files[0:]` is the whole list). -/
theorem retention_zero_behavior :
    prune_old_backups_local "db2"
        ["db2-backup-20240105-020000.tar.xz",
         "db2-backup-20240106-020000.tar.xz"] 0 = []
    ∧ remote_to_delete [⟨"pre/db2-backup-20240105-020000.tar.xz", "id5", 5⟩] 0 =
        [⟨"pre/db2-backup-20240105-020000.tar.xz", "id5", 5⟩] := by decide

/-- C5: against any simulated store with a positive page cap, the paginated
listing follows the cursor until exhaustion and returns exactly the store's
full object sequence under the prefix — no duplicates, no omissions,
regardless of where page boundaries fall. -/
theorem listObjects_pagination_complete (s : B2Store) (pfx : String)
    (hcap : 0 < s.cap) :
    b2_list_files s pfx = storeListed s pfx :=
  b2_list_files_complete s pfx hcap

/-- Witness for C5: five objects served in pages of two (three pages, the
last one short). -/
theorem listObjects_pagination_complete_witness :
    0 < (2 : Nat)
    ∧ b2_list_files
        ⟨[⟨"p/a", "1", 1⟩, ⟨"p/b", "2", 2⟩, ⟨"p/c", "3", 3⟩, ⟨"p/d", "4", 4⟩,
          ⟨"p/e", "5", 5⟩], 2⟩ "p/" =
      storeListed
        ⟨[⟨"p/a", "1", 1⟩, ⟨"p/b", "2", 2⟩, ⟨"p/c", "3", 3⟩, ⟨"p/d", "4", 4⟩,
          ⟨"p/e", "5", 5⟩], 2⟩ "p/" :=
  ⟨by decide, listObjects_pagination_complete _ _ (by decide)⟩

/-- C6: bucket resolution is two-path.  When the authorized scope carries the
requested bucket name together with a (truthy) bucket id, that id is
returned and the listing endpoint is not called; otherwise the listing is
queried and the id of the first bucket with the requested name is returned,
with a not-found failure (modelled as `none`) when no listed bucket carries
that name. -/
theorem resolve_bucket_two_paths (allowed : Option B2Allowed)
    (bucket_name : String) (buckets : List B2BucketInfo) :
    (∀ a, allowed = some a → a.bucketName = some bucket_name →
      truthyOpt a.bucketId = true →
      b2_resolve_bucket_id allowed bucket_name buckets = (a.bucketId, false))
    ∧ ((∀ a, allowed = some a →
          ¬(a.bucketName = some bucket_name ∧ truthyOpt a.bucketId = true)) →
        b2_resolve_bucket_id allowed bucket_name buckets =
          ((buckets.find? (fun b => b.bucketName == bucket_name)).map
            B2BucketInfo.bucketId, true))
    ∧ ((∀ a, allowed = some a →
          ¬(a.bucketName = some bucket_name ∧ truthyOpt a.bucketId = true)) →
        (∀ b ∈ buckets, ¬ (b.bucketName = bucket_name)) →
        b2_resolve_bucket_id allowed bucket_name buckets = (none, true)) := by
  refine ⟨?_, ?_, ?_⟩
  · intro a ha hname hid
    subst ha
    unfold b2_resolve_bucket_id
    dsimp only
    rw [if_pos ⟨hname, hid⟩]
  · intro h
    rcases allowed with _ | a
    · unfold b2_resolve_bucket_id
      rw [findBucketId_eq_find?]
    · have ha := h a rfl
      unfold b2_resolve_bucket_id
      dsimp only
      rw [if_neg ha, findBucketId_eq_find?]
  · intro h hnone
    have hfind : buckets.find? (fun b => b.bucketName == bucket_name) = none :=
      List.find?_eq_none.mpr (fun b hb => by simpa using hnone b hb)
    rcases allowed with _ | a
    · unfold b2_resolve_bucket_id
      rw [findBucketId_eq_find?, hfind]
      rfl
    · have ha := h a rfl
      unfold b2_resolve_bucket_id
      dsimp only
      rw [if_neg ha, findBucketId_eq_find?, hfind]
      rfl

/-- Witness for C6: a scope-restricted key resolves without listing; an
unrestricted key resolves through the listing. -/
theorem resolve_bucket_two_paths_witness :
    b2_resolve_bucket_id (some ⟨some "mybucket", some "scopedId"⟩) "mybucket" []
        = (some "scopedId", false)
    ∧ b2_resolve_bucket_id none "mybucket"
        [⟨"other", "x"⟩, ⟨"mybucket", "listedId"⟩] = (some "listedId", true) := by
  constructor
  · exact (resolve_bucket_two_paths (some ⟨some "mybucket", some "scopedId"⟩)
      "mybucket" []).1 ⟨some "mybucket", some "scopedId"⟩ rfl rfl (by decide)
  · have h := (resolve_bucket_two_paths none "mybucket"
      [⟨"other", "x"⟩, ⟨"mybucket", "listedId"⟩]).2.1 (fun a ha => nomatch ha)
    rw [h]
    rfl

/-- C7: per-file read failures during archive creation are skipped without
aborting — the archive contains exactly the readable walked files under
their source-relative paths — while a failure to open the archive itself is
a fatal error. -/
theorem create_backup_partial_failure (canOpen : Bool) (source_dir : String)
    (all_files : List SrcFile) (bname : String) :
    (canOpen = true → create_backup canOpen source_dir all_files bname =
        Except.ok (BACKUP_DIR ++ "/" ++ bname,
          (all_files.filter (fun f => f.readable)).map
            (fun f => relative_to source_dir f.path)))
    ∧ (canOpen = false → create_backup canOpen source_dir all_files bname =
        Except.error "cannot open archive for writing") := by
  constructor
  · intro h
    subst h
    simp [create_backup, tar_add_loop_eq]
  · intro h
    subst h
    rfl

/-- Witness for C7: a three-file walk with one unreadable file produces an
archive holding the other two under relative paths; an unopenable archive is
a fatal error. -/
theorem create_backup_partial_failure_witness :
    create_backup true "/backup_source"
        [⟨"/backup_source/data/a.txt", true⟩, ⟨"/backup_source/tmp/wal", false⟩,
         ⟨"/backup_source/b.txt", true⟩] "db1-backup-20240101-020000.tar.xz" =
      Except.ok ("/usr/app/storage/backups/db1-backup-20240101-020000.tar.xz",
        ["data/a.txt", "b.txt"])
    ∧ create_backup false "/backup_source" [] "x.tar.xz" =
      Except.error "cannot open archive for writing" := by
  constructor
  · have h := (create_backup_partial_failure true "/backup_source"
      [⟨"/backup_source/data/a.txt", true⟩, ⟨"/backup_source/tmp/wal", false⟩,
       ⟨"/backup_source/b.txt", true⟩] "db1-backup-20240101-020000.tar.xz").1 rfl
    rw [h]
    rfl
  · exact (create_backup_partial_failure false "/backup_source" [] "x.tar.xz").2 rfl

/-- C8 counterexample: the transport failure raised for a failing rclone run
does not contain the child's stderr — the `RuntimeError` message is only
`"Command failed: " ++ command` and the call never captures the output
streams. -/
theorem transport_error_lacks_stderr :
    ¬ stderrPropagated "/usr/app/storage/backups/db1-backup-20240101-020000.tar.xz"
        "B2:mybucket/backups" ⟨1, "", "boom: connection reset"⟩ := by decide

/-- C8 (amended): the transport step raises if and only if the external copy
command exits non-zero; the exact command is the first thing logged, before
execution; and the raised failure carries the command string (the child's
stdout/stderr are inherited streams, not captured, and are not part of the
raised message). -/
theorem transport_failure_contract (local_path remote_path : String)
    (res : ProcResult) :
    ((upload_to_b2 local_path remote_path res).2 = Except.ok () ↔
        res.returncode = 0)
    ∧ ((upload_to_b2 local_path remote_path res).1.head? =
        some ("Executing: " ++ rclone_command local_path remote_path))
    ∧ (¬ res.returncode = 0 → (upload_to_b2 local_path remote_path res).2 =
        Except.error ("Command failed: " ++ rclone_command local_path remote_path)) := by
  by_cases h : res.returncode = 0
  · simp [upload_to_b2, run_command, h]
  · simp [upload_to_b2, run_command, h]

/-- Witness for the amended C8 at exit code 2. -/
theorem transport_failure_contract_witness :
    ¬ ((2 : Int) = 0)
    ∧ (upload_to_b2 "/usr/app/storage/backups/a.tar.xz" "B2:bkt/pre"
        ⟨2, "", ""⟩).2 =
      Except.error ("Command failed: " ++
        rclone_command "/usr/app/storage/backups/a.tar.xz" "B2:bkt/pre") :=
  ⟨by decide, (transport_failure_contract "/usr/app/storage/backups/a.tar.xz"
    "B2:bkt/pre" ⟨2, "", ""⟩).2.2 (by decide)⟩

/-- C9 counterexample: an archive of the distinct job `a-backup-x` matches
job `a`'s glob pattern, so job `a`'s pruning deletes another job's archive
— the "in particular" part of the claim fails for such job identifiers. -/
theorem cross_job_archive_deleted :
    ¬ ("a-backup-x" = "a")
    ∧ backup_name "a-backup-x" "20250101-020000" ∈
      prune_old_backups_local "a"
        [backup_name "a-backup-x" "20250101-020000",
         backup_name "a-backup-x" "20250102-020000"] 1 := by decide

/-- C9 (amended): local pruning is frame-bounded by the glob pattern — every
file in the backup directory whose name does not match
`{job}-backup-*.tar.xz` is never deleted and survives the prune.  (The
original claim's aside that archives of every other job identifier are
covered fails exactly when the other identifier has the form
`{job}-backup-…`, as the counterexample shows.) -/
theorem local_prune_frame (job : String) (dir : List String) (N : Nat)
    (name : String) (hmem : name ∈ dir)
    (hnm : matchesBackupPattern job name = false) :
    name ∈ prune_local_result job dir N
    ∧ name ∉ prune_old_backups_local job dir N := by
  have hnotdel : name ∉ prune_old_backups_local job dir N := by
    intro hdel
    have htrue := (mem_prune_local_matches job dir N name hdel).2
    rw [hnm] at htrue
    exact absurd htrue (by decide)
  refine ⟨?_, hnotdel⟩
  unfold prune_local_result
  refine List.mem_filter.mpr ⟨hmem, ?_⟩
  simpa using hnotdel

/-- Witness for the amended C9: a foreign file (different job id, pattern
mismatch) survives a prune that deletes one of the job's own archives. -/
theorem local_prune_frame_witness :
    "otherjob-backup-20240101-020000.tar.xz" ∈
      prune_local_result "db1"
        ["db1-backup-20240101-020000.tar.xz", "db1-backup-20240102-020000.tar.xz",
         "otherjob-backup-20240101-020000.tar.xz"] 1
    ∧ "otherjob-backup-20240101-020000.tar.xz" ∉
      prune_old_backups_local "db1"
        ["db1-backup-20240101-020000.tar.xz", "db1-backup-20240102-020000.tar.xz",
         "otherjob-backup-20240101-020000.tar.xz"] 1 :=
  local_prune_frame "db1"
    ["db1-backup-20240101-020000.tar.xz", "db1-backup-20240102-020000.tar.xz",
     "otherjob-backup-20240101-020000.tar.xz"] 1
    "otherjob-backup-20240101-020000.tar.xz" (by decide) (by decide)

/-- C10: remote pruning normalizes the configured prefix before listing — a
prefix without a trailing slash gets one appended — and every object the
prune considers (hence every object it deletes) lies under the
slash-terminated prefix; an object whose name begins with the raw prefix but
not with the slash-terminated form is never listed and never deleted. -/
theorem remote_prune_prefix_normalized (store : B2Store) (pfx : String)
    (keep : Nat) (o : RemoteFile) :
    (pfx.data.getLast? ≠ some '/' → withSlash pfx = pfx ++ "/")
    ∧ prune_old_backups_remote_b2 store pfx keep =
        remote_to_delete (b2_list_files store (withSlash pfx)) keep
    ∧ ((withSlash pfx).data.isPrefixOf o.fileName.data = false →
        o ∉ b2_list_files store (withSlash pfx))
    ∧ ((withSlash pfx).data.isPrefixOf o.fileName.data = false →
        o ∉ prune_old_backups_remote_b2 store pfx keep) := by
  have hlist : ∀ x, x ∈ b2_list_files store (withSlash pfx) →
      (withSlash pfx).data.isPrefixOf x.fileName.data = true :=
    fun x hx => (mem_b2_list_files store (withSlash pfx) x hx).2
  refine ⟨?_, rfl, ?_, ?_⟩
  · intro h
    unfold withSlash
    rw [if_neg h]
  · intro h hmem
    rw [hlist o hmem] at h
    exact absurd h (by decide)
  · intro h hmem
    have h1 : o ∈ b2_list_files store (withSlash pfx) := by
      have h2 : o ∈ sortByTsDesc (b2_list_files store (withSlash pfx)) := by
        unfold prune_old_backups_remote_b2 at hmem
        rw [remote_to_delete_eq_drop] at hmem
        exact List.mem_of_mem_drop hmem
      exact (List.mem_insertionSort tsGe).mp h2
    rw [hlist o h1] at h
    exact absurd h (by decide)

/-- Witness for C10: prefix `pre` is listed as `pre/`, and an object named
`preX` (raw-prefix match only) is not deleted even at keep-count 0. -/
theorem remote_prune_prefix_normalized_witness :
    withSlash "pre" = "pre" ++ "/"
    ∧ (⟨"preX", "idX", 9⟩ : RemoteFile) ∉
      prune_old_backups_remote_b2
        ⟨[⟨"preX", "idX", 9⟩, ⟨"pre/a.tar.xz", "idA", 1⟩], 10⟩ "pre" 0 :=
  ⟨(remote_prune_prefix_normalized
      ⟨[⟨"preX", "idX", 9⟩, ⟨"pre/a.tar.xz", "idA", 1⟩], 10⟩ "pre" 0
      ⟨"preX", "idX", 9⟩).1 (by decide),
   (remote_prune_prefix_normalized
      ⟨[⟨"preX", "idX", 9⟩, ⟨"pre/a.tar.xz", "idA", 1⟩], 10⟩ "pre" 0
      ⟨"preX", "idX", 9⟩).2.2.2 (by decide)⟩
